import Mathlib

/-
Verification of the github-syncer reconciliation engine (src/main.py).
The Python source is shallowly embedded: bytes are lists of byte values,
Python str values are lists of characters, the mutable tracked set
(a Python set of LocalRepository with equality and hash by repo.id)
is a list kept free of id-duplicates by the set operations, and the
outcomes of the subprocess-backed operations (LocalRepository.init,
Git.pull, Git.has_any_branches) are supplied as explicit environment
functions. Raised exceptions are modelled as Option/Except-style
results, and the filesystem-touching operations performed during a
cycle are recorded as an explicit effect trace.
-/

namespace GithubSyncer

/-- Python bytes values: a list of byte values. -/
abbrev Bytes := List Nat

/-- Python str values: a list of characters. -/
abbrev PyStr := List Char

/-- Characters of a Lean string literal. -/
def chars (s : String) : PyStr := s.toList

/-- Encode an ASCII string as bytes, as the concrete stderr samples are built. -/
def bytesOf (l : PyStr) : Bytes := l.map Char.toNat

/-- The replacement character U+FFFD produced by the replace error handler. -/
def replChar : Char := Char.ofNat 0xFFFD

/-- A UTF-8 continuation byte. -/
def isCont (b : Nat) : Bool := 0x80 ≤ b && b < 0xC0

/-- One fuel-indexed step stack for the UTF-8 decoder; the fuel is only a
structural-recursion measure and is always at least the list length at the
call sites, so it never runs out. -/
def decodeAux : Nat → Bytes → List Char
  | 0, _ => []
  | _ + 1, [] => []
  | fuel + 1, b :: rest =>
    if b < 0x80 then Char.ofNat b :: decodeAux fuel rest
    else if 0xC2 ≤ b && b ≤ 0xDF then
      match rest with
      | [] => [replChar]
      | b2 :: rest2 =>
        if isCont b2 then
          Char.ofNat ((b - 0xC0) * 64 + (b2 - 0x80)) :: decodeAux fuel rest2
        else replChar :: decodeAux fuel rest
    else if 0xE0 ≤ b && b ≤ 0xEF then
      match rest with
      | b2 :: b3 :: rest3 =>
        if isCont b2 && isCont b3 &&
           (!(b == 0xE0) || 0xA0 ≤ b2) && (!(b == 0xED) || b2 < 0xA0) then
          Char.ofNat ((b - 0xE0) * 4096 + (b2 - 0x80) * 64 + (b3 - 0x80)) :: decodeAux fuel rest3
        else replChar :: decodeAux fuel rest
      | _ => replChar :: decodeAux fuel rest
    else if 0xF0 ≤ b && b ≤ 0xF4 then
      match rest with
      | b2 :: b3 :: b4 :: rest4 =>
        if isCont b2 && isCont b3 && isCont b4 &&
           (!(b == 0xF0) || 0x90 ≤ b2) && (!(b == 0xF4) || b2 < 0x90) then
          Char.ofNat ((b - 0xF0) * 262144 + (b2 - 0x80) * 4096 +
                      (b3 - 0x80) * 64 + (b4 - 0x80)) :: decodeAux fuel rest4
        else replChar :: decodeAux fuel rest
      | _ => replChar :: decodeAux fuel rest
    else replChar :: decodeAux fuel rest

/-- Decode UTF-8 with the replace error handler: this embeds the call
stderr.decode with utf-8 and replace in GitError.from_error_msg
(src/main.py line 27). Valid sequences decode to their code point; an
invalid or truncated sequence yields U+FFFD. Total on every byte list,
as the replace handler of the source never raises. -/
def decodeReplace (stderr : Bytes) : List Char := decodeAux stderr.length stderr

/-- Python str.split on the newline character: split at every newline,
keeping empty pieces, as in src/main.py line 27. -/
def splitNl : List Char → List PyStr
  | [] => [[]]
  | c :: t =>
    if c = '\n' then [] :: splitNl t
    else
      match splitNl t with
      | [] => [[c]]
      | l :: ls => (c :: l) :: ls

/-- Python substring containment: pat in s for str values. -/
def hasSubstr (pat : PyStr) : PyStr → Bool
  | [] => pat.isEmpty
  | c :: t => pat.isPrefixOf (c :: t) || hasSubstr pat t

/-- The fatal marker that anchors classification (src/main.py line 28). -/
def fatalMarker : PyStr := ("fatal:").toList

/-- The first decoded line starting with the fatal marker, if any:
this embeds the next expression of src/main.py lines 25 to 29; a none
result corresponds to the StopIteration branch. -/
def findFatal (stderr : Bytes) : Option PyStr :=
  (splitNl (decodeReplace stderr)).find? (fun l => fatalMarker.isPrefixOf l)

/-- Substring tested for NotRepositoryError (src/main.py line 35). -/
def patNotRepo : PyStr := ("not a git repository").toList

/-- Substring tested for RepositoryAlreadyExistsError (src/main.py line 37). -/
def patExists : PyStr := ("already exists and is not an empty").toList

/-- First connection substring (src/main.py line 39). -/
def patAccess : PyStr := ("unable to access").toList

/-- Second connection substring, with a capital C (src/main.py line 40). -/
def patRemoteRead : PyStr := ("Could not read from remote repository").toList

/-- Third connection substring, with its trailing space (src/main.py line 41). -/
def patLookUp : PyStr := ("unable to look up ").toList

/-- Fourth connection substring (src/main.py line 42). -/
def patEof : PyStr := ("early EOF").toList

/-- Substring tested by the benign-merge check in sync (src/main.py line 183). -/
def patMerge : PyStr := ("configuration specifies to merge with").toList

/-- The msg field of a GitError: annotated str in the source, but the two
fallback returns of from_error_msg pass the raw stderr bytes, so the field
in fact holds either a str or a bytes value. -/
inductive Msg where
  | str (s : PyStr)
  | bytes (b : Bytes)
deriving DecidableEq

/-- The GitError class hierarchy of src/main.py lines 15 to 54: the base
class (the Generic kind) and its three subclasses. -/
inductive GitError where
  | gitError (msg : Msg)
  | notRepositoryError (msg : Msg)
  | repositoryAlreadyExistsError (msg : Msg)
  | gitConnectionError (msg : Msg)
deriving DecidableEq

/-- The msg field carried by a GitError value. -/
def GitError.msgOf : GitError → Msg
  | .gitError m => m
  | .notRepositoryError m => m
  | .repositoryAlreadyExistsError m => m
  | .gitConnectionError m => m

/-- True exactly on NotRepositoryError values. -/
def GitError.isNotRepo : GitError → Bool
  | .notRepositoryError _ => true
  | _ => false

/-- True exactly on RepositoryAlreadyExistsError values. -/
def GitError.isExistsErr : GitError → Bool
  | .repositoryAlreadyExistsError _ => true
  | _ => false

/-- True exactly on GitConnectionError values. -/
def GitError.isConnErr : GitError → Bool
  | .gitConnectionError _ => true
  | _ => false

/-- True exactly on base-class GitError values, the Generic kind. -/
def GitError.isGenericBase : GitError → Bool
  | .gitError _ => true
  | _ => false

/-- GitError.from_error_msg (src/main.py lines 22 to 45). The decode call
uses the replace handler and therefore never raises, so the
UnicodeDecodeError branch of the source (line 32, returning cls with the
fixed unknown error text) is unreachable and has no corresponding case
here. Both fallback returns (lines 31 and 45) pass the raw stderr bytes. -/
def from_error_msg (stderr : Bytes) : GitError :=
  match findFatal stderr with
  | none => .gitError (.bytes stderr)
  | some fatal =>
    if hasSubstr patNotRepo fatal then .notRepositoryError (.str fatal)
    else if hasSubstr patExists fatal then .repositoryAlreadyExistsError (.str fatal)
    else if hasSubstr patAccess fatal || hasSubstr patRemoteRead fatal ||
            hasSubstr patLookUp fatal || hasSubstr patEof fatal then
      .gitConnectionError (.str fatal)
    else .gitError (.bytes stderr)

/-- A remote repository descriptor as used by the syncer: the id, owner id
and name fields of the listing objects consumed in src/main.py lines 141
to 147 and 158 to 164. The clone url only feeds the clone subprocess,
which is part of the abstract init outcome below. -/
structure Repo where
  id : Nat
  ownerId : Nat
  name : PyStr
deriving DecidableEq

/-- The LocalRepository class (src/main.py lines 87 to 114): a descriptor
plus its local path. -/
structure LocalRepository where
  repo : Repo
  path : PyStr
deriving DecidableEq

/-- os.path.join of the repos directory and a repository name
(src/main.py lines 146 and 160). -/
def pathJoin (dir name : PyStr) : PyStr := dir ++ ("/").toList ++ name

/-- Construction of a LocalRepository from a descriptor, with its path
derived from the repos directory and the repository name. -/
def mkLocal (reposDir : PyStr) (r : Repo) : LocalRepository :=
  ⟨r, pathJoin reposDir r.name⟩

/-- LocalRepository equality (src/main.py lines 110 to 111): by repo.id
alone; hashing (lines 113 to 114) agrees. -/
def eqById (a b : LocalRepository) : Bool := a.repo.id == b.repo.id

/-- Membership in a Python set of LocalRepository: some element compares
equal, that is shares the repo id. -/
def memSet (s : List LocalRepository) (x : LocalRepository) : Bool :=
  s.any (eqById x)

/-- Python set.add: a no-op when an id-equal element is already present,
otherwise the element is inserted. -/
def addSet (s : List LocalRepository) (x : LocalRepository) : List LocalRepository :=
  if memSet s x then s else s ++ [x]

/-- Python set.remove of an id-equal element. -/
def removeSet (s : List LocalRepository) (x : LocalRepository) : List LocalRepository :=
  s.filter (fun h => !(eqById h x))

/-- Python set.difference under id-equality (src/main.py lines 165 to 166). -/
def diffSet (a b : List LocalRepository) : List LocalRepository :=
  a.filter (fun x => !(memSet b x))

/-- The set built from a list by successive adds, as a Python set
comprehension does: the first handle of each id is kept. -/
def setOfList (l : List LocalRepository) : List LocalRepository :=
  l.foldl addSet []

/-- Whether some handle of the set carries the given repo id. -/
def memId (s : List LocalRepository) (i : Nat) : Bool :=
  s.any (fun h => h.repo.id == i)

/-- The repo ids of a tracked set, in order. -/
def idsOf (s : List LocalRepository) : List Nat := s.map (fun h => h.repo.id)

/-- Python exceptions crossing the boundaries we model: a raised GitError,
or the TypeError raised by testing a str for membership in a bytes value
(the check at src/main.py line 183 when msg holds bytes). -/
inductive PyExc where
  | gitExc (e : GitError)
  | typeError
deriving DecidableEq

/-- True exactly on a raised RepositoryAlreadyExistsError, the exception
caught by the handler at src/main.py line 150. -/
def PyExc.isAlreadyExists : PyExc → Bool
  | .gitExc (.repositoryAlreadyExistsError _) => true
  | _ => false

/-- Filesystem-touching operations performed during a cycle:
LocalRepository.init (stat of the path and possibly a clone into it),
Git.pull inside the path, and Git.branch inside the path. -/
inductive Effect where
  | initE (h : LocalRepository)
  | pullE (h : LocalRepository)
  | branchE (h : LocalRepository)
deriving DecidableEq

/-- The handle an effect operates on. -/
def Effect.handleOf : Effect → LocalRepository
  | .initE h => h
  | .pullE h => h
  | .branchE h => h

/-- True exactly on init effects. -/
def Effect.isInit : Effect → Bool
  | .initE _ => true
  | _ => false

/-- Outcomes of the subprocess-backed operations, supplied by the
environment: the result of LocalRepository.init on a handle (none means
success, some is the raised exception), the stderr of a failed Git.pull
(none means the pull succeeded), and the boolean returned by
Git.has_any_branches. -/
structure Env where
  initRes : LocalRepository → Option PyExc
  pullRes : LocalRepository → Option Bytes
  branchRes : LocalRepository → Bool

/-- The loop of GithubSync init_repos (src/main.py lines 138 to 155):
descriptors not owned by the user are skipped; each remaining descriptor
is initialized, a raised RepositoryAlreadyExistsError is swallowed and the
handle still added, any other raised exception propagates with the adds
made so far retained (the set is mutated in place). -/
def initReposLoop (env : Env) (reposDir : PyStr) (userId : Nat) :
    List LocalRepository → List Repo → List LocalRepository × List Effect × Option PyExc
  | acc, [] => (acc, [], none)
  | acc, r :: rest =>
    if r.ownerId == userId then
      let h := mkLocal reposDir r
      match env.initRes h with
      | some e =>
        if e.isAlreadyExists then
          let out := initReposLoop env reposDir userId (addSet acc h) rest
          (out.1, .initE h :: out.2.1, out.2.2)
        else (acc, [.initE h], some e)
      | none =>
        let out := initReposLoop env reposDir userId (addSet acc h) rest
        (out.1, .initE h :: out.2.1, out.2.2)
    else initReposLoop env reposDir userId acc rest

/-- GithubSync init_repos: the tracked set is reset to empty and rebuilt
from the listing. -/
def initRepos (env : Env) (reposDir : PyStr) (userId : Nat) (listing : List Repo) :
    List LocalRepository × List Effect × Option PyExc :=
  initReposLoop env reposDir userId [] listing

/-- The remote handle set of find_new_repos (src/main.py lines 159 to
164): one handle per owner-matching descriptor, collected into a set. -/
def remoteSet (reposDir : PyStr) (userId : Nat) (listing : List Repo) :
    List LocalRepository :=
  setOfList ((listing.filter (fun r => r.ownerId == userId)).map (mkLocal reposDir))

/-- The new handles of a cycle (src/main.py line 165). -/
def newRepos (reposDir : PyStr) (userId : Nat) (state : List LocalRepository)
    (listing : List Repo) : List LocalRepository :=
  diffSet (remoteSet reposDir userId listing) state

/-- The handles to drop in a cycle (src/main.py line 166). -/
def deletedRepos (reposDir : PyStr) (userId : Nat) (state : List LocalRepository)
    (listing : List Repo) : List LocalRepository :=
  diffSet state (remoteSet reposDir userId listing)

/-- The loop over new handles in find_new_repos (src/main.py lines 168 to
171): init is called with no handler, so any raised exception propagates,
aborting the remaining new handles with the adds made so far retained. -/
def procNew (env : Env) :
    List LocalRepository → List LocalRepository → List LocalRepository × List Effect × Option PyExc
  | st, [] => (st, [], none)
  | st, h :: rest =>
    match env.initRes h with
    | some e => (st, [.initE h], some e)
    | none =>
      let out := procNew env (addSet st h) rest
      (out.1, .initE h :: out.2.1, out.2.2)

/-- GithubSync find_new_repos (src/main.py lines 157 to 175): diff the
remote set against the tracked set, initialize and add the new handles,
then drop the handles whose repository is gone; a raised exception during
the new-handle loop skips the drop loop. -/
def findNewRepos (env : Env) (reposDir : PyStr) (userId : Nat)
    (state : List LocalRepository) (listing : List Repo) :
    List LocalRepository × List Effect × Option PyExc :=
  let remote := remoteSet reposDir userId listing
  let out := procNew env state (diffSet remote state)
  match out.2.2 with
  | some e => (out.1, out.2.1, some e)
  | none => ((diffSet state remote).foldl removeSet out.1, out.2.1, none)

/-- The refresh loop of GithubSync sync (src/main.py lines 179 to 189).
A failed pull raises the classified error; its handler tests whether the
merge substring occurs in the msg field, which raises TypeError when msg
holds bytes; on a match Git.has_any_branches is consulted and the error
is swallowed exactly when the repository has no branches, any other
outcome re-raises, aborting the remaining refreshes. -/
def refreshLoop (env : Env) : List LocalRepository → List Effect × Option PyExc
  | [] => ([], none)
  | h :: rest =>
    match env.pullRes h with
    | none =>
      let out := refreshLoop env rest
      (.pullE h :: out.1, out.2)
    | some stderr =>
      let e := from_error_msg stderr
      match e.msgOf with
      | .bytes _ => ([.pullE h], some .typeError)
      | .str s =>
        if hasSubstr patMerge s then
          if env.branchRes h then ([.pullE h, .branchE h], some (.gitExc e))
          else
            let out := refreshLoop env rest
            (.pullE h :: .branchE h :: out.1, out.2)
        else ([.pullE h], some (.gitExc e))

/-- GithubSync sync (src/main.py lines 177 to 189): one reconciliation
cycle, find_new_repos followed by the refresh loop over the tracked set. -/
def sync (env : Env) (reposDir : PyStr) (userId : Nat)
    (state : List LocalRepository) (listing : List Repo) :
    List LocalRepository × List Effect × Option PyExc :=
  match findNewRepos env reposDir userId state listing with
  | (st, eff, some e) => (st, eff, some e)
  | (st, eff, none) =>
    let out := refreshLoop env st
    (st, eff ++ out.1, out.2)

/-- The repos directory used by the concrete samples. -/
def rdSample : PyStr := ("repos").toList

/-- A descriptor owned by the sample account, whose id is 7. -/
def repoA : Repo := ⟨1, 7, ("alpha").toList⟩

/-- A second descriptor owned by the sample account. -/
def repoB : Repo := ⟨2, 7, ("beta").toList⟩

/-- A descriptor owned by another account, an organization. -/
def repoOrg : Repo := ⟨3, 9, ("gamma").toList⟩

/-- The sample handle of repoA. -/
def hA : LocalRepository := mkLocal rdSample repoA

/-- The sample handle of repoB. -/
def hB : LocalRepository := mkLocal rdSample repoB

/-- The all-success environment: every init and every pull succeeds. -/
def envOk : Env := ⟨fun _ => none, fun _ => none, fun _ => false⟩

/-- A raised RepositoryAlreadyExistsError sample. -/
def alreadyExistsExc : PyExc :=
  .gitExc (.repositoryAlreadyExistsError
    (.str (("fatal: destination path beta already exists and is not an empty directory").toList)))

/-- An environment whose every init raises the already-exists error. -/
def envAE : Env := ⟨fun _ => some alreadyExistsExc, fun _ => none, fun _ => false⟩

/-- First stderr of the correctness table of the spec: the bytes of the
text fatal: repository (quoted x) does not appear to be a git repository. -/
def tbl1 : Bytes := [102, 97, 116, 97, 108, 58, 32, 114, 101, 112, 111, 115, 105, 116,
  111, 114, 121, 32, 39, 120, 39, 32, 100, 111, 101, 115, 32, 110, 111, 116, 32, 97,
  112, 112, 101, 97, 114, 32, 116, 111, 32, 98, 101, 32, 97, 32, 103, 105, 116, 32,
  114, 101, 112, 111, 115, 105, 116, 111, 114, 121]

/-- Second stderr of the correctness table: the bytes of the text
fatal: destination path (quoted x) already exists and is not an empty
directory. -/
def tbl2 : Bytes := [102, 97, 116, 97, 108, 58, 32, 100, 101, 115, 116, 105, 110, 97,
  116, 105, 111, 110, 32, 112, 97, 116, 104, 32, 39, 120, 39, 32, 97, 108, 114, 101,
  97, 100, 121, 32, 101, 120, 105, 115, 116, 115, 32, 97, 110, 100, 32, 105, 115, 32,
  110, 111, 116, 32, 97, 110, 32, 101, 109, 112, 116, 121, 32, 100, 105, 114, 101, 99,
  116, 111, 114, 121]

/-- Third stderr of the correctness table: the bytes of the text
fatal: unable to access (quoted url): Could not resolve host. -/
def tbl3 : Bytes := [102, 97, 116, 97, 108, 58, 32, 117, 110, 97, 98, 108, 101, 32,
  116, 111, 32, 97, 99, 99, 101, 115, 115, 32, 39, 117, 114, 108, 39, 58, 32, 67, 111,
  117, 108, 100, 32, 110, 111, 116, 32, 114, 101, 115, 111, 108, 118, 101, 32, 104,
  111, 115, 116]

/-- Fourth stderr of the correctness table: the bytes of the text
fatal: your current branch (quoted master) does not have any commits yet. -/
def tbl4 : Bytes := [102, 97, 116, 97, 108, 58, 32, 121, 111, 117, 114, 32, 99, 117,
  114, 114, 101, 110, 116, 32, 98, 114, 97, 110, 99, 104, 32, 39, 109, 97, 115, 116,
  101, 114, 39, 32, 100, 111, 101, 115, 32, 110, 111, 116, 32, 104, 97, 118, 101, 32,
  97, 110, 121, 32, 99, 111, 109, 109, 105, 116, 115, 32, 121, 101, 116]

/-- A stderr whose fatal line matches no known substring, preceded by a
warning line, so the fatal line differs from the whole stream. -/
def ex8 : Bytes := bytesOf (("warning: w\nfatal: strange thing happened").toList)

/-- The fatal line of ex8. -/
def ex8fatal : PyStr := ("fatal: strange thing happened").toList

/-- A pull stderr carrying the merge-configuration text inside a fatal
line that classifies as a connection error, hence with a str msg. -/
def mergeStderr : Bytes :=
  bytesOf (("fatal: unable to access repo q: configuration specifies to merge with ref m").toList)

/-- The realistic merge-configuration pull failure: its fatal line
carries the merge-configuration text but matches none of the classifier
substrings, so it classifies as the Generic base error with a bytes msg. -/
def mergeFatalStderr : Bytes :=
  bytesOf (("fatal: Your configuration specifies to merge with the ref m from the remote, but no such ref was fetched.").toList)

/-- An environment whose every pull fails with mergeFatalStderr and whose
repositories have no branches. -/
def envMergeGeneric : Env := ⟨fun _ => none, fun _ => some mergeFatalStderr, fun _ => false⟩

/-- A descriptor with a fresh id reusing the name of repoB, as a deleted
and recreated repository does. -/
def repoC : Repo := ⟨5, 7, ("beta").toList⟩

/-- The handle of repoC: its path equals the path of hB. -/
def hC : LocalRepository := mkLocal rdSample repoC

/-- A pull stderr with no fatal line at all. -/
def noFatalStderr : Bytes := bytesOf (("error: some pull failure without marker").toList)

/-- An invalid UTF-8 stderr. -/
def badUtf8 : Bytes := [255, 254]

/-- An environment whose every pull fails with mergeStderr and whose
repositories have no branches. -/
def envMerge : Env := ⟨fun _ => none, fun _ => some mergeStderr, fun _ => false⟩

/-- An environment whose every pull fails with the marker-free stderr. -/
def envNoFatal : Env := ⟨fun _ => none, fun _ => some noFatalStderr, fun _ => false⟩

/-- Two booleans agreeing as propositions are equal. -/
theorem boolExt {a b : Bool} (h : (a = true) ↔ (b = true)) : a = b := by
  cases a <;> cases b <;> simp_all

/-- Nat boolean equality is symmetric. -/
theorem beqComm (a b : Nat) : (a == b) = (b == a) := by
  by_cases h : a = b
  · subst h; rfl
  · have h' : ¬b = a := fun hb => h hb.symm
    simp [h, h']

/-- Set membership of a handle is id membership of its id. -/
theorem memSet_eq_memId (s : List LocalRepository) (x : LocalRepository) :
    memSet s x = memId s x.repo.id := by
  induction s with
  | nil => rfl
  | cons h t ih =>
    simp only [memSet, memId, List.any_cons] at *
    rw [ih, eqById, beqComm]

/-- A listed handle witnesses id membership. -/
theorem mem_memId {s : List LocalRepository} {x : LocalRepository} (hx : x ∈ s) :
    memId s x.repo.id = true := by
  simp only [memId, List.any_eq_true]
  exact ⟨x, hx, by simp⟩

/-- Id membership after a set add. -/
theorem memId_addSet (s : List LocalRepository) (h : LocalRepository) (i : Nat) :
    memId (addSet s h) i = (memId s i || h.repo.id == i) := by
  unfold addSet
  by_cases hm : memSet s h
  · rw [if_pos hm]
    by_cases hi : h.repo.id = i
    · subst hi
      rw [memSet_eq_memId] at hm
      simp [hm]
    · simp [hi]
  · rw [if_neg hm]
    simp [memId, List.any_append]

/-- Id membership after folding adds over a list. -/
theorem memId_foldl_addSet (l : List LocalRepository) (st : List LocalRepository) (i : Nat) :
    memId (l.foldl addSet st) i = (memId st i || memId l i) := by
  induction l generalizing st with
  | nil => simp [memId]
  | cons h t ih =>
    simp only [List.foldl_cons, ih, memId_addSet]
    simp only [memId, List.any_cons]
    rw [Bool.or_assoc]

/-- Id membership after a set removal. -/
theorem memId_removeSet (s : List LocalRepository) (x : LocalRepository) (i : Nat) :
    memId (removeSet s x) i = (memId s i && !(x.repo.id == i)) := by
  apply boolExt
  simp only [memId, removeSet, List.any_eq_true, List.mem_filter, Bool.and_eq_true,
    Bool.not_eq_true', beq_iff_eq, beq_eq_false_iff_ne, eqById]
  constructor
  · rintro ⟨a, ⟨has, hane⟩, hai⟩
    exact ⟨⟨a, has, hai⟩, fun hxi => hane (by omega)⟩
  · rintro ⟨⟨a, has, hai⟩, hxi⟩
    exact ⟨a, ⟨has, by omega⟩, hai⟩

/-- Id membership after folding removals over a list. -/
theorem memId_foldl_removeSet (del : List LocalRepository) (st : List LocalRepository) (i : Nat) :
    memId (del.foldl removeSet st) i = (memId st i && !(memId del i)) := by
  induction del generalizing st with
  | nil => simp [memId]
  | cons h t ih =>
    simp only [List.foldl_cons, ih, memId_removeSet]
    simp only [memId, List.any_cons]
    by_cases hhi : h.repo.id = i <;> simp [hhi, Bool.and_assoc]

/-- Id membership in a set difference. -/
theorem memId_diffSet (a b : List LocalRepository) (i : Nat) :
    memId (diffSet a b) i = (memId a i && !(memId b i)) := by
  apply boolExt
  simp only [memId, diffSet, memSet, List.any_eq_true, List.mem_filter, Bool.and_eq_true,
    Bool.not_eq_true', List.any_eq_false, beq_iff_eq, beq_eq_false_iff_ne, eqById]
  constructor
  · rintro ⟨h, ⟨hha, hnb⟩, hhi⟩
    refine ⟨⟨h, hha, hhi⟩, ?_⟩
    intro y hy
    have := hnb y hy
    omega
  · rintro ⟨⟨h, hha, hhi⟩, hnb⟩
    refine ⟨h, ⟨hha, ?_⟩, hhi⟩
    intro y hy
    have := hnb y hy
    omega

/-- Id membership in the deduplicated set of a list. -/
theorem memId_setOfList (l : List LocalRepository) (i : Nat) :
    memId (setOfList l) i = memId l i := by
  unfold setOfList
  rw [memId_foldl_addSet]
  simp [memId]

/-- Id membership in the remote handle set: the listing has an
owner-matching descriptor with that id. -/
theorem memId_remoteSet (reposDir : PyStr) (userId : Nat) (listing : List Repo) (i : Nat) :
    memId (remoteSet reposDir userId listing) i
      = listing.any (fun r => r.ownerId == userId && r.id == i) := by
  unfold remoteSet
  rw [memId_setOfList]
  induction listing with
  | nil => rfl
  | cons r rest ih =>
    by_cases ho : r.ownerId = userId <;>
      simp_all [List.filter_cons, memId, mkLocal]

/-- When every init succeeds, the new-handle loop adds every handle, emits
one init effect per handle and raises nothing. -/
theorem procNew_success (env : Env) (st : List LocalRepository) (l : List LocalRepository)
    (hok : ∀ h, env.initRes h = none) :
    procNew env st l = (l.foldl addSet st, l.map .initE, none) := by
  induction l generalizing st with
  | nil => rfl
  | cons h t ih =>
    simp only [procNew, hok h, ih (addSet st h), List.foldl_cons, List.map_cons]

/-- When the new-handle loop raises nothing, it behaved as the all-success
loop: every handle was added and one init effect emitted per handle. -/
theorem procNew_ok (env : Env) (st : List LocalRepository) (l : List LocalRepository)
    (hok : (procNew env st l).2.2 = none) :
    (procNew env st l).1 = l.foldl addSet st ∧ (procNew env st l).2.1 = l.map .initE := by
  induction l generalizing st with
  | nil => exact ⟨rfl, rfl⟩
  | cons h t ih =>
    simp only [procNew] at hok ⊢
    cases hi : env.initRes h with
    | some e =>
      rw [hi] at hok
      simp at hok
    | none =>
      rw [hi] at hok
      obtain ⟨h1, h2⟩ := ih (addSet st h) (by simpa using hok)
      simp [h1, h2]

/-- A prefix of successful inits followed by a failing one: the loop stops
at the failure, having added exactly the prefix. -/
theorem procNew_split (env : Env) (st : List LocalRepository)
    (pre post : List LocalRepository) (h : LocalRepository) (e : PyExc)
    (hpre : ∀ x ∈ pre, env.initRes x = none) (hh : env.initRes h = some e) :
    procNew env st (pre ++ h :: post)
      = (pre.foldl addSet st, pre.map .initE ++ [.initE h], some e) := by
  induction pre generalizing st with
  | nil => simp [procNew, hh]
  | cons a t ih =>
    have ha : env.initRes a = none := hpre a (by simp)
    have ht : ∀ x ∈ t, env.initRes x = none := fun x hx => hpre x (by simp [hx])
    have hrec := ih (addSet st a) ht
    simp only [List.cons_append, procNew, ha, List.foldl_cons, List.map_cons, List.append_eq]
    rw [hrec]

/-- Any state the new-handle loop produces contains only prior members and
worklist handles. -/
theorem procNew_mem (env : Env) (st : List LocalRepository) (l : List LocalRepository)
    (x : LocalRepository) (hx : x ∈ (procNew env st l).1) : x ∈ st ∨ x ∈ l := by
  induction l generalizing st with
  | nil => exact Or.inl hx
  | cons h t ih =>
    simp only [procNew] at hx
    cases hi : env.initRes h with
    | some e => rw [hi] at hx; exact Or.inl hx
    | none =>
      rw [hi] at hx
      simp only at hx
      rcases ih (addSet st h) hx with hmem | hmem
      · unfold addSet at hmem
        by_cases hm : memSet st h
        · rw [if_pos hm] at hmem; exact Or.inl hmem
        · rw [if_neg hm] at hmem
          rcases List.mem_append.mp hmem with h1 | h1
          · exact Or.inl h1
          · simp at h1; subst h1; exact Or.inr (by simp)
      · exact Or.inr (by simp [hmem])

/-- Every effect of the new-handle loop is an init of a worklist handle. -/
theorem procNew_eff (env : Env) (st : List LocalRepository) (l : List LocalRepository)
    (e : Effect) (he : e ∈ (procNew env st l).2.1) : ∃ x ∈ l, e = .initE x := by
  induction l generalizing st with
  | nil => simp [procNew] at he
  | cons h t ih =>
    simp only [procNew] at he
    cases hi : env.initRes h with
    | some ex =>
      rw [hi] at he
      simp at he
      exact ⟨h, by simp, he⟩
    | none =>
      rw [hi] at he
      simp only [List.mem_cons] at he
      rcases he with he | he
      · exact ⟨h, by simp, he⟩
      · obtain ⟨x, hx, hex⟩ := ih (addSet st h) he
        exact ⟨x, by simp [hx], hex⟩

/-- Folding removals only ever removes elements. -/
theorem mem_foldl_removeSet (del : List LocalRepository) (st : List LocalRepository)
    (x : LocalRepository) (hx : x ∈ del.foldl removeSet st) : x ∈ st := by
  induction del generalizing st with
  | nil => exact hx
  | cons h t ih =>
    simp only [List.foldl_cons] at hx
    have := ih (removeSet st h) hx
    exact List.mem_of_mem_filter this

/-- Members of a set built by folding adds come from the seed or the list. -/
theorem mem_foldl_addSet (l : List LocalRepository) (st : List LocalRepository)
    (x : LocalRepository) (hx : x ∈ l.foldl addSet st) : x ∈ st ∨ x ∈ l := by
  induction l generalizing st with
  | nil => exact Or.inl hx
  | cons h t ih =>
    simp only [List.foldl_cons] at hx
    rcases ih (addSet st h) hx with hmem | hmem
    · unfold addSet at hmem
      by_cases hm : memSet st h
      · rw [if_pos hm] at hmem; exact Or.inl hmem
      · rw [if_neg hm] at hmem
        rcases List.mem_append.mp hmem with h1 | h1
        · exact Or.inl h1
        · simp at h1; subst h1; exact Or.inr (by simp)
    · exact Or.inr (by simp [hmem])

/-- Members of the deduplicated set come from the list. -/
theorem mem_setOfList (l : List LocalRepository) (x : LocalRepository)
    (hx : x ∈ setOfList l) : x ∈ l := by
  rcases mem_foldl_addSet l [] x hx with h | h
  · simp at h
  · exact h

/-- Every member of the remote handle set is the handle of an
owner-matching descriptor of the listing. -/
theorem mem_remoteSet (reposDir : PyStr) (userId : Nat) (listing : List Repo)
    (x : LocalRepository) (hx : x ∈ remoteSet reposDir userId listing) :
    ∃ r ∈ listing, r.ownerId = userId ∧ x = mkLocal reposDir r := by
  have hx' := mem_setOfList _ _ hx
  simp only [List.mem_map, List.mem_filter] at hx'
  obtain ⟨r, ⟨hr, hro⟩, hxr⟩ := hx'
  exact ⟨r, hr, by simpa using hro, hxr.symm⟩

/-- When every pull succeeds, the refresh loop emits one pull effect per
tracked handle and raises nothing. -/
theorem refreshLoop_success (env : Env) (l : List LocalRepository)
    (hok : ∀ h, env.pullRes h = none) :
    refreshLoop env l = (l.map .pullE, none) := by
  induction l with
  | nil => rfl
  | cons h t ih => simp only [refreshLoop, hok h, ih, List.map_cons]

/-- Every effect of the refresh loop is a pull or a branch check of a
tracked handle; in particular it is never an init. -/
theorem refreshLoop_eff (env : Env) (l : List LocalRepository) (e : Effect)
    (he : e ∈ (refreshLoop env l).1) : ∃ x ∈ l, e = .pullE x ∨ e = .branchE x := by
  induction l with
  | nil => simp [refreshLoop] at he
  | cons h t ih =>
    simp only [refreshLoop] at he
    cases hp : env.pullRes h with
    | none =>
      rw [hp] at he
      simp only [List.mem_cons] at he
      rcases he with he | he
      · exact ⟨h, by simp, Or.inl he⟩
      · obtain ⟨x, hx, hor⟩ := ih he
        exact ⟨x, by simp [hx], hor⟩
    | some stderr =>
      rw [hp] at he
      simp only at he
      cases hm : (from_error_msg stderr).msgOf with
      | bytes b =>
        rw [hm] at he
        simp at he
        exact ⟨h, by simp, Or.inl he⟩
      | str s =>
        rw [hm] at he
        simp only at he
        by_cases hsub : hasSubstr patMerge s
        · rw [if_pos hsub] at he
          by_cases hbr : env.branchRes h
          · rw [if_pos hbr] at he
            simp at he
            rcases he with he | he
            · exact ⟨h, by simp, Or.inl he⟩
            · exact ⟨h, by simp, Or.inr he⟩
          · rw [if_neg hbr] at he
            simp only [List.mem_cons] at he
            rcases he with he | he | he
            · exact ⟨h, by simp, Or.inl he⟩
            · exact ⟨h, by simp, Or.inr he⟩
            · obtain ⟨x, hx, hor⟩ := ih he
              exact ⟨x, by simp [hx], hor⟩
        · rw [if_neg hsub] at he
          simp at he
          exact ⟨h, by simp, Or.inl he⟩

/-- Members of a set after an add come from the set or are the added one. -/
theorem mem_addSet (s : List LocalRepository) (x a : LocalRepository)
    (ha : a ∈ addSet s x) : a ∈ s ∨ a = x := by
  unfold addSet at ha
  by_cases hm : memSet s x
  · rw [if_pos hm] at ha; exact Or.inl ha
  · rw [if_neg hm] at ha
    rcases List.mem_append.mp ha with h1 | h1
    · exact Or.inl h1
    · simp at h1; exact Or.inr h1

/-- Members of a set difference belong to the left set. -/
theorem mem_diffSet (a b : List LocalRepository) (x : LocalRepository)
    (hx : x ∈ diffSet a b) : x ∈ a :=
  List.mem_of_mem_filter hx

/-- Members of a set difference are not id-members of the right set. -/
theorem memSet_of_mem_diffSet (a b : List LocalRepository) (x : LocalRepository)
    (hx : x ∈ diffSet a b) : memSet b x = false := by
  have := List.of_mem_filter hx
  simpa using this

/-- Adding keeps the ids free of duplicates. -/
theorem nodup_idsOf_addSet (s : List LocalRepository) (x : LocalRepository)
    (h : (idsOf s).Nodup) : (idsOf (addSet s x)).Nodup := by
  unfold addSet
  by_cases hm : memSet s x
  · rwa [if_pos hm]
  · rw [if_neg hm]
    rw [memSet_eq_memId] at hm
    simp only [memId, List.any_eq_true, not_exists, not_and, Bool.not_eq_true,
      beq_eq_false_iff_ne] at hm
    have hx : x.repo.id ∉ idsOf s := by
      simp only [idsOf, List.mem_map, not_exists, not_and]
      intro a ha hax
      exact hm a ha hax
    simp only [idsOf, List.map_append, List.map_cons, List.map_nil]
    exact List.Nodup.append h (List.nodup_singleton _)
      (by simpa [List.disjoint_singleton] using hm)

/-- Folding adds keeps the ids free of duplicates. -/
theorem nodup_idsOf_foldl_addSet (l : List LocalRepository) (st : List LocalRepository)
    (h : (idsOf st).Nodup) : (idsOf (l.foldl addSet st)).Nodup := by
  induction l generalizing st with
  | nil => exact h
  | cons a t ih => exact ih (addSet st a) (nodup_idsOf_addSet st a h)

/-- The deduplicated set of a list has ids free of duplicates. -/
theorem nodup_idsOf_setOfList (l : List LocalRepository) :
    (idsOf (setOfList l)).Nodup :=
  nodup_idsOf_foldl_addSet l [] (by simp [idsOf])

/-- Filtering preserves duplicate-freeness of the ids. -/
theorem nodup_idsOf_filter (s : List LocalRepository) (p : LocalRepository → Bool)
    (h : (idsOf s).Nodup) : (idsOf (s.filter p)).Nodup :=
  List.Nodup.sublist (List.Sublist.map _ (List.filter_sublist s)) h

/-- A handle occurring after a duplicate-free prefix is not an id-member
of that prefix. -/
theorem memId_of_nodup_split (pre post : List LocalRepository) (h : LocalRepository)
    (hn : (idsOf (pre ++ h :: post)).Nodup) : memId pre h.repo.id = false := by
  simp only [idsOf, List.map_append, List.map_cons, List.nodup_append] at hn
  obtain ⟨_, _, hdisj⟩ := hn
  apply boolExt
  simp only [memId, List.any_eq_true, beq_iff_eq]
  constructor
  · rintro ⟨a, ha, hai⟩
    exact absurd (by simp : h.repo.id ∈ h.repo.id :: List.map (fun h => h.repo.id) post)
      (hdisj (hai ▸ List.mem_map_of_mem _ ha))
  · intro hfalse
    simp at hfalse

/-- A cycle whose new-handle loop raised: its result keeps the aborted
state and effects and skips the drop loop. -/
theorem findNewRepos_err (env : Env) (rd : PyStr) (uid : Nat)
    (st : List LocalRepository) (L : List Repo) (e : PyExc)
    (h : (procNew env st (diffSet (remoteSet rd uid L) st)).2.2 = some e) :
    findNewRepos env rd uid st L
      = ((procNew env st (diffSet (remoteSet rd uid L) st)).1,
         (procNew env st (diffSet (remoteSet rd uid L) st)).2.1, some e) := by
  unfold findNewRepos
  simp only
  rw [h]

/-- A cycle whose new-handle loop raised nothing: the drop loop runs on
the extended state. -/
theorem findNewRepos_noerr (env : Env) (rd : PyStr) (uid : Nat)
    (st : List LocalRepository) (L : List Repo)
    (h : (procNew env st (diffSet (remoteSet rd uid L) st)).2.2 = none) :
    findNewRepos env rd uid st L
      = ((diffSet st (remoteSet rd uid L)).foldl removeSet
           (procNew env st (diffSet (remoteSet rd uid L) st)).1,
         (procNew env st (diffSet (remoteSet rd uid L) st)).2.1, none) := by
  unfold findNewRepos
  simp only
  rw [h]

/-- When one reconciliation cycle raises nothing, its tracked set holds
exactly the ids of the remote handle set. -/
theorem findNewRepos_ok_memId (env : Env) (rd : PyStr) (uid : Nat)
    (st : List LocalRepository) (L : List Repo)
    (hok : (findNewRepos env rd uid st L).2.2 = none) (i : Nat) :
    memId (findNewRepos env rd uid st L).1 i = memId (remoteSet rd uid L) i := by
  cases hpn : (procNew env st (diffSet (remoteSet rd uid L) st)).2.2 with
  | some e =>
    rw [findNewRepos_err env rd uid st L e hpn] at hok
    simp at hok
  | none =>
    rw [findNewRepos_noerr env rd uid st L hpn]
    show memId ((diffSet st (remoteSet rd uid L)).foldl removeSet
        (procNew env st (diffSet (remoteSet rd uid L) st)).1) i
      = memId (remoteSet rd uid L) i
    rw [memId_foldl_removeSet, (procNew_ok env st _ hpn).1, memId_foldl_addSet,
      memId_diffSet, memId_diffSet]
    cases memId st i <;> cases memId (remoteSet rd uid L) i <;> rfl

/-- Members of the cycle result set come from the prior tracked set or the
remote handle set, whatever the init outcomes were. -/
theorem findNewRepos_mem (env : Env) (rd : PyStr) (uid : Nat)
    (st : List LocalRepository) (L : List Repo) (x : LocalRepository)
    (hx : x ∈ (findNewRepos env rd uid st L).1) :
    x ∈ st ∨ x ∈ remoteSet rd uid L := by
  cases hpn : (procNew env st (diffSet (remoteSet rd uid L) st)).2.2 with
  | some e =>
    rw [findNewRepos_err env rd uid st L e hpn] at hx
    have hx' : x ∈ (procNew env st (diffSet (remoteSet rd uid L) st)).1 := hx
    rcases procNew_mem env st _ x hx' with h1 | h1
    · exact Or.inl h1
    · exact Or.inr (mem_diffSet _ _ _ h1)
  | none =>
    rw [findNewRepos_noerr env rd uid st L hpn] at hx
    have hx0 : x ∈ List.foldl removeSet
        ((procNew env st (diffSet (remoteSet rd uid L) st))).1
        (diffSet st (remoteSet rd uid L)) := by
      simpa using hx
    have hx' := mem_foldl_removeSet _ _ _ hx0
    rcases procNew_mem env st _ x hx' with h1 | h1
    · exact Or.inl h1
    · exact Or.inr (mem_diffSet _ _ _ h1)

/-- A difference is empty when every left element is an id-member of the
right set. -/
theorem diffSet_eq_nil (a b : List LocalRepository) (h : ∀ x ∈ a, memSet b x = true) :
    diffSet a b = [] := by
  induction a with
  | nil => rfl
  | cons x t ih =>
    have hx := h x (by simp)
    have ht : ∀ y ∈ t, memSet b y = true := fun y hy => h y (by simp [hy])
    simpa [diffSet, List.filter_cons, hx] using ih ht

/-- A cycle whose new-handle loop raised: sync stops there with that
state, those effects and that exception. -/
theorem sync_err (env : Env) (rd : PyStr) (uid : Nat)
    (st : List LocalRepository) (L : List Repo) (e : PyExc)
    (h : (findNewRepos env rd uid st L).2.2 = some e) :
    sync env rd uid st L
      = ((findNewRepos env rd uid st L).1, (findNewRepos env rd uid st L).2.1, some e) := by
  unfold sync
  rcases hfe : findNewRepos env rd uid st L with ⟨stN, effN, errN⟩
  rw [hfe] at h
  simp only at h
  subst h
  rfl

/-- A cycle whose new-handle loop raised nothing: sync runs the refresh
loop over the resulting tracked set, which it returns unchanged. -/
theorem sync_noerr (env : Env) (rd : PyStr) (uid : Nat)
    (st : List LocalRepository) (L : List Repo)
    (h : (findNewRepos env rd uid st L).2.2 = none) :
    sync env rd uid st L
      = ((findNewRepos env rd uid st L).1,
         (findNewRepos env rd uid st L).2.1
           ++ (refreshLoop env (findNewRepos env rd uid st L).1).1,
         (refreshLoop env (findNewRepos env rd uid st L).1).2) := by
  unfold sync
  rcases hfe : findNewRepos env rd uid st L with ⟨stN, effN, errN⟩
  rw [hfe] at h
  simp only at h
  subst h
  rfl

/-- The refresh loop never changes the tracked set: the state sync
returns is the state find_new_repos produced. -/
theorem sync_fst (env : Env) (rd : PyStr) (uid : Nat)
    (st : List LocalRepository) (L : List Repo) :
    (sync env rd uid st L).1 = (findNewRepos env rd uid st L).1 := by
  unfold sync
  rcases hfe : findNewRepos env rd uid st L with ⟨stN, effN, errN⟩
  cases errN <;> rfl

/-- The startup loop only ever adds owner-matching handles. -/
theorem initReposLoop_owner (env : Env) (rd : PyStr) (uid : Nat)
    (listing : List Repo) (acc : List LocalRepository)
    (hacc : ∀ x ∈ acc, x.repo.ownerId = uid) :
    ∀ x ∈ (initReposLoop env rd uid acc listing).1, x.repo.ownerId = uid := by
  induction listing generalizing acc with
  | nil => exact hacc
  | cons r rest ih =>
    intro x hx
    simp only [initReposLoop] at hx
    by_cases ho : (r.ownerId == uid) = true
    · have hadd : ∀ y ∈ addSet acc (mkLocal rd r), y.repo.ownerId = uid := by
        intro y hy
        rcases mem_addSet _ _ _ hy with h1 | h1
        · exact hacc y h1
        · subst h1
          simpa [mkLocal] using (by simpa using ho : r.ownerId = uid)
      rw [if_pos ho] at hx
      split at hx
      · split at hx
        · exact ih (addSet acc (mkLocal rd r)) hadd x hx
        · exact hacc x hx
      · exact ih (addSet acc (mkLocal rd r)) hadd x hx
    · rw [if_neg ho] at hx
      exact ih acc hacc x hx

/-- Pull and branch effects are not init effects. -/
theorem not_isInit_of_pull_or_branch (e : Effect) (x : LocalRepository)
    (h : e = .pullE x ∨ e = .branchE x) : e.isInit = false := by
  rcases h with h | h <;> subst h <;> rfl

/-- A cycle that raised nothing had a new-handle loop that raised
nothing. -/
theorem procNew_none_of_findNew_none (env : Env) (rd : PyStr) (uid : Nat)
    (st : List LocalRepository) (L : List Repo)
    (hok : (findNewRepos env rd uid st L).2.2 = none) :
    (procNew env st (diffSet (remoteSet rd uid L) st)).2.2 = none := by
  cases hpn : (procNew env st (diffSet (remoteSet rd uid L) st)).2.2 with
  | none => rfl
  | some e =>
    rw [findNewRepos_err env rd uid st L e hpn] at hok
    simp at hok

/-- C1: for every tracked set and every new listing, if no init or
refresh raises then one reconciliation cycle raises nothing and moves the
tracked set to exactly the handles whose descriptor id occurs in the new
listing with the owner id of the authenticated account; membership is
compared by id only. -/
theorem c1_reconcile_set_diff (env : Env) (rd : PyStr) (uid : Nat)
    (st : List LocalRepository) (L2 : List Repo)
    (hInit : ∀ h, env.initRes h = none) (hPull : ∀ h, env.pullRes h = none) :
    (sync env rd uid st L2).2.2 = none ∧
    ∀ i, memId (sync env rd uid st L2).1 i
        = L2.any (fun r => r.ownerId == uid && r.id == i) := by
  have hpn : (procNew env st (diffSet (remoteSet rd uid L2) st)).2.2 = none := by
    rw [procNew_success env st _ hInit]
  have hok : (findNewRepos env rd uid st L2).2.2 = none := by
    rw [findNewRepos_noerr env rd uid st L2 hpn]
  refine ⟨?_, ?_⟩
  · rw [sync_noerr env rd uid st L2 hok]
    show (refreshLoop env (findNewRepos env rd uid st L2).1).2 = none
    rw [refreshLoop_success env _ hPull]
  · intro i
    rw [sync_fst env rd uid st L2, findNewRepos_ok_memId env rd uid st L2 hok i,
      memId_remoteSet]

/-- Witness for C1 at a concrete listing holding one owner-matching and
one organization descriptor, starting from the empty tracked set. -/
theorem c1_reconcile_set_diff_witness :
    (∀ h, envOk.initRes h = none) ∧ (∀ h, envOk.pullRes h = none) ∧
    ((sync envOk rdSample 7 [] [repoA, repoOrg]).2.2 = none ∧
     ∀ i, memId (sync envOk rdSample 7 [] [repoA, repoOrg]).1 i
        = [repoA, repoOrg].any (fun r => r.ownerId == 7 && r.id == i)) :=
  ⟨fun _ => rfl, fun _ => rfl,
   c1_reconcile_set_diff envOk rdSample 7 [] [repoA, repoOrg]
     (fun _ => rfl) (fun _ => rfl)⟩

/-- C2 (amended): with a fatal line found, the classifier applies the
precedence of the source exactly; on the four concrete table stderr
samples it returns Generic, AlreadyExists, ConnectionFailure and Generic
respectively: the first sample does not contain the tested substring
not a git repository, so it falls through to the Generic fallback rather
than mapping to NotARepository as the spec table states. -/
theorem c2_classifier_precedence_amended (stderr : Bytes) (fatal : PyStr)
    (hf : findFatal stderr = some fatal) :
    ((hasSubstr patNotRepo fatal = true →
        from_error_msg stderr = .notRepositoryError (.str fatal)) ∧
     (hasSubstr patNotRepo fatal = false → hasSubstr patExists fatal = true →
        from_error_msg stderr = .repositoryAlreadyExistsError (.str fatal)) ∧
     (hasSubstr patNotRepo fatal = false → hasSubstr patExists fatal = false →
        (hasSubstr patAccess fatal || hasSubstr patRemoteRead fatal ||
         hasSubstr patLookUp fatal || hasSubstr patEof fatal) = true →
        from_error_msg stderr = .gitConnectionError (.str fatal)) ∧
     (hasSubstr patNotRepo fatal = false → hasSubstr patExists fatal = false →
        (hasSubstr patAccess fatal || hasSubstr patRemoteRead fatal ||
         hasSubstr patLookUp fatal || hasSubstr patEof fatal) = false →
        from_error_msg stderr = .gitError (.bytes stderr))) ∧
    ((from_error_msg tbl1).isGenericBase = true ∧
     (from_error_msg tbl2).isExistsErr = true ∧
     (from_error_msg tbl3).isConnErr = true ∧
     (from_error_msg tbl4).isGenericBase = true) := by
  refine ⟨⟨?_, ?_, ?_, ?_⟩, by decide⟩
  · intro h1
    simp [from_error_msg, hf, h1]
  · intro h1 h2
    simp [from_error_msg, hf, h1, h2]
  · intro h1 h2 h3
    simp only [from_error_msg, hf, h1, h2, h3]
    simp at h3
    simp [h3]
  · intro h1 h2 h3
    simp only [from_error_msg, hf]
    simp at h3
    simp [h1, h2, h3]

/-- Witness for C2 at the fourth table stderr, whose fatal line is its
whole decoded text. -/
theorem c2_classifier_witness :
    findFatal tbl4 = some (decodeReplace tbl4) ∧
    ((hasSubstr patNotRepo (decodeReplace tbl4) = true →
        from_error_msg tbl4 = .notRepositoryError (.str (decodeReplace tbl4))) ∧
     (hasSubstr patNotRepo (decodeReplace tbl4) = false →
        hasSubstr patExists (decodeReplace tbl4) = true →
        from_error_msg tbl4 = .repositoryAlreadyExistsError (.str (decodeReplace tbl4))) ∧
     (hasSubstr patNotRepo (decodeReplace tbl4) = false →
        hasSubstr patExists (decodeReplace tbl4) = false →
        (hasSubstr patAccess (decodeReplace tbl4) || hasSubstr patRemoteRead (decodeReplace tbl4) ||
         hasSubstr patLookUp (decodeReplace tbl4) || hasSubstr patEof (decodeReplace tbl4)) = true →
        from_error_msg tbl4 = .gitConnectionError (.str (decodeReplace tbl4))) ∧
     (hasSubstr patNotRepo (decodeReplace tbl4) = false →
        hasSubstr patExists (decodeReplace tbl4) = false →
        (hasSubstr patAccess (decodeReplace tbl4) || hasSubstr patRemoteRead (decodeReplace tbl4) ||
         hasSubstr patLookUp (decodeReplace tbl4) || hasSubstr patEof (decodeReplace tbl4)) = false →
        from_error_msg tbl4 = .gitError (.bytes tbl4))) ∧
    ((from_error_msg tbl1).isGenericBase = true ∧
     (from_error_msg tbl2).isExistsErr = true ∧
     (from_error_msg tbl3).isConnErr = true ∧
     (from_error_msg tbl4).isGenericBase = true) :=
  ⟨by decide, c2_classifier_precedence_amended tbl4 (decodeReplace tbl4) (by decide)⟩

/-- Counterexample for C2 as stated: the first table stderr does not
classify as NotARepository. -/
theorem c2_classifier_counterexample : (from_error_msg tbl1).isNotRepo = false := by
  decide

/-- C3 (amended): during a reconciliation cycle, a newly discovered
handle whose init raises any exception, the already-exists error
included, has the exception propagate: the handle is not added, the
remaining new handles are not processed and the drop loop is skipped.
The swallowing of the already-exists error happens only in the startup
loop init_repos, not in find_new_repos. -/
theorem c3_reconcile_init_error_amended (env : Env) (rd : PyStr) (uid : Nat)
    (st : List LocalRepository) (L : List Repo)
    (pre post : List LocalRepository) (h : LocalRepository) (e : PyExc)
    (hnew : diffSet (remoteSet rd uid L) st = pre ++ h :: post)
    (hpre : ∀ x ∈ pre, env.initRes x = none)
    (hh : env.initRes h = some e) :
    findNewRepos env rd uid st L
      = (pre.foldl addSet st, pre.map Effect.initE ++ [Effect.initE h], some e) ∧
    memId (pre.foldl addSet st) h.repo.id = false := by
  have hpn : procNew env st (diffSet (remoteSet rd uid L) st)
      = (pre.foldl addSet st, pre.map Effect.initE ++ [Effect.initE h], some e) := by
    rw [hnew, procNew_split env st pre post h e hpre hh]
  constructor
  · rw [findNewRepos_err env rd uid st L e (by rw [hpn])]
    rw [hpn]
  · rw [memId_foldl_addSet]
    have h1 : memId st h.repo.id = false := by
      have hhmem : h ∈ diffSet (remoteSet rd uid L) st := by
        rw [hnew]; simp
      have := memSet_of_mem_diffSet _ _ _ hhmem
      rwa [memSet_eq_memId] at this
    have h2 : memId pre h.repo.id = false := by
      have hnd : (idsOf (diffSet (remoteSet rd uid L) st)).Nodup :=
        nodup_idsOf_filter (remoteSet rd uid L) (fun x => !(memSet st x))
          (nodup_idsOf_setOfList _)
      rw [hnew] at hnd
      exact memId_of_nodup_split pre post h hnd
    rw [h1, h2]
    rfl

/-- Witness for C3 (amended) at a concrete cycle with one new handle
whose init raises the already-exists error. -/
theorem c3_reconcile_init_error_witness :
    (diffSet (remoteSet rdSample 7 [repoB]) [] = [] ++ hB :: []) ∧
    (∀ x ∈ ([] : List LocalRepository), envAE.initRes x = none) ∧
    envAE.initRes hB = some alreadyExistsExc ∧
    (findNewRepos envAE rdSample 7 [] [repoB]
        = (([] : List LocalRepository).foldl addSet [],
           ([] : List LocalRepository).map Effect.initE ++ [Effect.initE hB],
           some alreadyExistsExc) ∧
     memId (([] : List LocalRepository).foldl addSet []) hB.repo.id = false) :=
  ⟨by decide, fun x hx => absurd hx (List.not_mem_nil x), rfl,
   c3_reconcile_init_error_amended envAE rdSample 7 [] [repoB] [] [] hB
     alreadyExistsExc (by decide) (fun x hx => absurd hx (List.not_mem_nil x)) rfl⟩

/-- Counterexample for C3 as stated: in a reconciliation cycle the
already-exists error raised by the init of the one new handle is not
swallowed, and the handle is not added to the tracked set. -/
theorem c3_reconcile_init_error_counterexample :
    findNewRepos envAE rdSample 7 [] [repoB]
      = ([], [Effect.initE hB], some alreadyExistsExc) ∧
    memId (findNewRepos envAE rdSample 7 [] [repoB]).1 hB.repo.id = false := by
  decide

/-- C4 (amended): the branch-dependent swallow of a merge-configuration
refresh failure happens only when the raised GitError carries a str msg
containing the text, which only the three subclass kinds can: then zero
branches swallows with the remaining refreshes proceeding and at least
one branch re-raises, aborting them. When the msg holds bytes, as it
does for every Generic-classified failure, the realistic
merge-configuration message included, the containment test itself raises
TypeError, aborting the remaining refreshes without any branch check. -/
theorem c4_benign_merge_amended (env : Env) (h : LocalRepository)
    (rest : List LocalRepository) (stderr : Bytes)
    (hp : env.pullRes h = some stderr) :
    (∀ s, (from_error_msg stderr).msgOf = .str s → hasSubstr patMerge s = true →
      ((env.branchRes h = false →
        refreshLoop env (h :: rest)
          = (Effect.pullE h :: Effect.branchE h :: (refreshLoop env rest).1,
             (refreshLoop env rest).2)) ∧
       (env.branchRes h = true →
        refreshLoop env (h :: rest)
          = ([Effect.pullE h, Effect.branchE h],
             some (.gitExc (from_error_msg stderr)))))) ∧
    (∀ b, (from_error_msg stderr).msgOf = .bytes b →
      refreshLoop env (h :: rest) = ([Effect.pullE h], some PyExc.typeError)) := by
  constructor
  · intro s hmsg hsub
    constructor <;> intro hbr <;>
      simp [refreshLoop, hp, hmsg, hsub, hbr]
  · intro b hmsg
    simp [refreshLoop, hp, hmsg]

/-- Witness for C4 (amended) at a concrete connection-error stderr
carrying the merge-configuration text, on a zero-branch repository. -/
theorem c4_benign_merge_amended_witness :
    envMerge.pullRes hA = some mergeStderr ∧
    ((∀ s, (from_error_msg mergeStderr).msgOf = .str s →
        hasSubstr patMerge s = true →
        ((envMerge.branchRes hA = false →
          refreshLoop envMerge (hA :: [hB])
            = (Effect.pullE hA :: Effect.branchE hA :: (refreshLoop envMerge [hB]).1,
               (refreshLoop envMerge [hB]).2)) ∧
         (envMerge.branchRes hA = true →
          refreshLoop envMerge (hA :: [hB])
            = ([Effect.pullE hA, Effect.branchE hA],
               some (.gitExc (from_error_msg mergeStderr)))))) ∧
     (∀ b, (from_error_msg mergeStderr).msgOf = .bytes b →
        refreshLoop envMerge (hA :: [hB]) = ([Effect.pullE hA], some PyExc.typeError))) :=
  ⟨rfl, c4_benign_merge_amended envMerge hA [hB] mergeStderr rfl⟩

/-- Counterexample for C4 as stated: the realistic merge-configuration
pull failure classifies as Generic with a bytes msg whose decoded text
contains the merge-configuration substring; on a zero-branch repository
the refresh loop then aborts with TypeError instead of swallowing the
error and proceeding with the remaining refreshes. -/
theorem c4_benign_merge_counterexample :
    (from_error_msg mergeFatalStderr).msgOf = Msg.bytes mergeFatalStderr ∧
    hasSubstr patMerge (decodeReplace mergeFatalStderr) = true ∧
    envMergeGeneric.branchRes hA = false ∧
    refreshLoop envMergeGeneric (hA :: [hB])
      = ([Effect.pullE hA], some PyExc.typeError) := by
  decide

/-- C5: a descriptor whose owner differs from the authenticated account
is never added: the startup loop only builds owner-matching handles, and
any cycle keeps a tracked set of owner-matching handles owner-matching. -/
theorem c5_owner_filtering (env : Env) (rd : PyStr) (uid : Nat)
    (Lboot Lcycle : List Repo) (st : List LocalRepository) :
    (∀ x ∈ (initRepos env rd uid Lboot).1, x.repo.ownerId = uid) ∧
    ((∀ x ∈ st, x.repo.ownerId = uid) →
      ∀ x ∈ (sync env rd uid st Lcycle).1, x.repo.ownerId = uid) := by
  constructor
  · exact initReposLoop_owner env rd uid Lboot [] (by simp)
  · intro hst x hx
    rw [sync_fst env rd uid st Lcycle] at hx
    rcases findNewRepos_mem env rd uid st Lcycle x hx with h1 | h1
    · exact hst x h1
    · obtain ⟨r, hr, hro, hxr⟩ := mem_remoteSet rd uid Lcycle x h1
      rw [hxr]
      simpa [mkLocal] using hro

/-- Witness for C5 at a startup listing and a cycle listing, both holding
an organization descriptor next to owner-matching ones. -/
theorem c5_owner_filtering_witness :
    (∀ x ∈ (initRepos envOk rdSample 7 [repoA, repoOrg]).1, x.repo.ownerId = 7) ∧
    (∀ x ∈ (sync envOk rdSample 7 [hA] [repoB, repoOrg]).1, x.repo.ownerId = 7) :=
  ⟨(c5_owner_filtering envOk rdSample 7 [repoA, repoOrg] [repoB, repoOrg] [hA]).1,
   (c5_owner_filtering envOk rdSample 7 [repoA, repoOrg] [repoB, repoOrg] [hA]).2
     (by decide)⟩

/-- C6: after a cycle that raised nothing, a second cycle with the same
unchanged listing computes no new and no deleted handles, leaves the
tracked set unchanged, raises nothing in its set phase and performs no
init effects: only refreshes. -/
theorem c6_idempotent (env env2 : Env) (rd : PyStr) (uid : Nat)
    (st st1 : List LocalRepository) (L : List Repo) (eff : List Effect)
    (h1 : findNewRepos env rd uid st L = (st1, eff, none)) :
    newRepos rd uid st1 L = [] ∧
    deletedRepos rd uid st1 L = [] ∧
    findNewRepos env2 rd uid st1 L = (st1, [], none) ∧
    (sync env2 rd uid st1 L).1 = st1 ∧
    (∀ e ∈ (sync env2 rd uid st1 L).2.1, e.isInit = false) := by
  have hok : (findNewRepos env rd uid st L).2.2 = none := by rw [h1]
  have hmem : ∀ i, memId st1 i = memId (remoteSet rd uid L) i := by
    intro i
    have hmm := findNewRepos_ok_memId env rd uid st L hok i
    rwa [h1] at hmm
  have hnew : newRepos rd uid st1 L = [] := by
    show diffSet (remoteSet rd uid L) st1 = []
    apply diffSet_eq_nil
    intro x hx
    rw [memSet_eq_memId, hmem x.repo.id]
    exact mem_memId hx
  have hdel : deletedRepos rd uid st1 L = [] := by
    show diffSet st1 (remoteSet rd uid L) = []
    apply diffSet_eq_nil
    intro x hx
    rw [memSet_eq_memId, ← hmem x.repo.id]
    exact mem_memId hx
  have h2 : findNewRepos env2 rd uid st1 L = (st1, [], none) := by
    have hdiffn : diffSet (remoteSet rd uid L) st1 = [] := hnew
    have hdiffd : diffSet st1 (remoteSet rd uid L) = [] := hdel
    have hpn : procNew env2 st1 (diffSet (remoteSet rd uid L) st1) = (st1, [], none) := by
      rw [hdiffn]
      rfl
    rw [findNewRepos_noerr env2 rd uid st1 L (by rw [hpn])]
    rw [hpn, hdiffd]
    rfl
  have hok2 : (findNewRepos env2 rd uid st1 L).2.2 = none := by rw [h2]
  refine ⟨hnew, hdel, h2, ?_, ?_⟩
  · rw [sync_fst env2 rd uid st1 L, h2]
  · intro e he
    rw [sync_noerr env2 rd uid st1 L hok2] at he
    have he' : e ∈ (findNewRepos env2 rd uid st1 L).2.1
        ++ (refreshLoop env2 (findNewRepos env2 rd uid st1 L).1).1 := he
    rcases List.mem_append.mp he' with h3 | h3
    · rw [h2] at h3
      simp at h3
    · obtain ⟨x, hx, hor⟩ := refreshLoop_eff env2 _ e h3
      exact not_isInit_of_pull_or_branch e x hor

/-- Witness for C6 at a concrete first cycle from the empty tracked set. -/
theorem c6_idempotent_witness :
    findNewRepos envOk rdSample 7 [] [repoA] = ([hA], [Effect.initE hA], none) ∧
    (newRepos rdSample 7 [hA] [repoA] = [] ∧
     deletedRepos rdSample 7 [hA] [repoA] = [] ∧
     findNewRepos envOk rdSample 7 [hA] [repoA] = ([hA], [], none) ∧
     (sync envOk rdSample 7 [hA] [repoA]).1 = [hA] ∧
     (∀ e ∈ (sync envOk rdSample 7 [hA] [repoA]).2.1, e.isInit = false)) :=
  ⟨by decide,
   c6_idempotent envOk envOk rdSample 7 [] [hA] [repoA] [Effect.initE hA] (by decide)⟩

/-- C7: the classifier is total: every byte stream, invalid UTF-8 or a
stream with no fatal line included, classifies to some GitError value
without raising; when no fatal line is found the result is the Generic
base error carrying the raw bytes. -/
theorem c7_classifier_total (stderr : Bytes) :
    ((∃ m, from_error_msg stderr = .gitError m) ∨
     (∃ m, from_error_msg stderr = .notRepositoryError m) ∨
     (∃ m, from_error_msg stderr = .repositoryAlreadyExistsError m) ∨
     (∃ m, from_error_msg stderr = .gitConnectionError m)) ∧
    (findFatal stderr = none → from_error_msg stderr = .gitError (.bytes stderr)) := by
  constructor
  · cases hfe : from_error_msg stderr with
    | gitError m => exact Or.inl ⟨m, rfl⟩
    | notRepositoryError m => exact Or.inr (Or.inl ⟨m, rfl⟩)
    | repositoryAlreadyExistsError m => exact Or.inr (Or.inr (Or.inl ⟨m, rfl⟩))
    | gitConnectionError m => exact Or.inr (Or.inr (Or.inr ⟨m, rfl⟩))
  · intro hnf
    unfold from_error_msg
    rw [hnf]

/-- Witness for C7 at an invalid UTF-8 stderr with no fatal line. -/
theorem c7_classifier_total_witness :
    findFatal badUtf8 = none ∧
    (((∃ m, from_error_msg badUtf8 = .gitError m) ∨
      (∃ m, from_error_msg badUtf8 = .notRepositoryError m) ∨
      (∃ m, from_error_msg badUtf8 = .repositoryAlreadyExistsError m) ∨
      (∃ m, from_error_msg badUtf8 = .gitConnectionError m)) ∧
     (findFatal badUtf8 = none → from_error_msg badUtf8 = .gitError (.bytes badUtf8))) :=
  ⟨by decide, c7_classifier_total badUtf8⟩

/-- C8 (amended): with a fatal line found matching none of the known
substrings, the classifier returns the Generic base error carrying the
full raw stderr bytes, not the decoded fatal line. -/
theorem c8_generic_raw_bytes_amended (stderr : Bytes) (fatal : PyStr)
    (hf : findFatal stderr = some fatal)
    (h1 : hasSubstr patNotRepo fatal = false)
    (h2 : hasSubstr patExists fatal = false)
    (h3 : hasSubstr patAccess fatal = false)
    (h4 : hasSubstr patRemoteRead fatal = false)
    (h5 : hasSubstr patLookUp fatal = false)
    (h6 : hasSubstr patEof fatal = false) :
    from_error_msg stderr = .gitError (.bytes stderr) := by
  simp [from_error_msg, hf, h1, h2, h3, h4, h5, h6]

/-- Witness for C8 (amended) at a two-line stderr with an unmatched
fatal line. -/
theorem c8_generic_raw_bytes_witness :
    (findFatal ex8 = some ex8fatal ∧
     hasSubstr patNotRepo ex8fatal = false ∧ hasSubstr patExists ex8fatal = false ∧
     hasSubstr patAccess ex8fatal = false ∧ hasSubstr patRemoteRead ex8fatal = false ∧
     hasSubstr patLookUp ex8fatal = false ∧ hasSubstr patEof ex8fatal = false) ∧
    from_error_msg ex8 = .gitError (.bytes ex8) :=
  ⟨by decide,
   c8_generic_raw_bytes_amended ex8 ex8fatal (by decide) (by decide) (by decide)
     (by decide) (by decide) (by decide) (by decide)⟩

/-- Counterexample for C8 as stated: on a stderr whose fatal line matches
no known substring, the msg field holds the raw bytes of the whole
stream, which differ from the fatal line. -/
theorem c8_generic_raw_bytes_counterexample :
    findFatal ex8 = some ex8fatal ∧
    (from_error_msg ex8).msgOf = Msg.bytes ex8 ∧
    Msg.bytes ex8 ≠ Msg.str ex8fatal := by
  decide

/-- C9 (amended): a handle dropped because its repository left the
listing is removed from the tracked set and no effect of the cycle
operates on a handle with its id: the drop itself performs no
filesystem operation. Its path stays untouched only provided no other
tracked handle and no owner-matching descriptor of the listing shares
the path; since paths derive from names, a different repository reusing
the dropped name is initialized and pulled inside the same directory. -/
theorem c9_drop_frame (env : Env) (rd : PyStr) (uid : Nat)
    (st : List LocalRepository) (L : List Repo) (h : LocalRepository)
    (hmem : h ∈ st)
    (hgone : memId (remoteSet rd uid L) h.repo.id = false)
    (hok : (findNewRepos env rd uid st L).2.2 = none) :
    memId (sync env rd uid st L).1 h.repo.id = false ∧
    (∀ e ∈ (sync env rd uid st L).2.1, (Effect.handleOf e).repo.id ≠ h.repo.id) ∧
    ((∀ x ∈ st, x.repo.id ≠ h.repo.id → x.path ≠ h.path) →
     (∀ r ∈ L, r.ownerId = uid → pathJoin rd r.name ≠ h.path) →
     ∀ e ∈ (sync env rd uid st L).2.1, (Effect.handleOf e).path ≠ h.path) := by
  have hfinal : memId (findNewRepos env rd uid st L).1 h.repo.id = false := by
    rw [findNewRepos_ok_memId env rd uid st L hok h.repo.id]
    exact hgone
  have heff : ∀ e ∈ (sync env rd uid st L).2.1,
      Effect.handleOf e ∈ remoteSet rd uid L ∨
      Effect.handleOf e ∈ (findNewRepos env rd uid st L).1 := by
    intro e he
    rw [sync_noerr env rd uid st L hok] at he
    have he' : e ∈ (findNewRepos env rd uid st L).2.1
        ++ (refreshLoop env (findNewRepos env rd uid st L).1).1 := he
    rcases List.mem_append.mp he' with h3 | h3
    · have hpn := procNew_none_of_findNew_none env rd uid st L hok
      rw [findNewRepos_noerr env rd uid st L hpn] at h3
      have h3' : e ∈ (procNew env st (diffSet (remoteSet rd uid L) st)).2.1 := h3
      obtain ⟨x, hx, hex⟩ := procNew_eff env st _ e h3'
      left
      rw [hex]
      exact mem_diffSet _ _ _ hx
    · obtain ⟨x, hx, hor⟩ := refreshLoop_eff env _ e h3
      right
      rcases hor with hh | hh <;> rw [hh] <;> exact hx
  have hid : ∀ e ∈ (sync env rd uid st L).2.1,
      (Effect.handleOf e).repo.id ≠ h.repo.id := by
    intro e he heq
    rcases heff e he with hr | hs
    · have hT := mem_memId hr
      rw [heq] at hT
      rw [hT] at hgone
      simp at hgone
    · have hT := mem_memId hs
      rw [heq] at hT
      rw [hT] at hfinal
      simp at hfinal
  refine ⟨?_, hid, ?_⟩
  · rw [sync_fst env rd uid st L]
    exact hfinal
  · intro hp1 hp2 e he
    rcases heff e he with hr | hs
    · obtain ⟨r, hrL, hro, hxr⟩ := mem_remoteSet rd uid L _ hr
      rw [hxr]
      exact hp2 r hrL hro
    · rcases findNewRepos_mem env rd uid st L _ hs with hst | hrem
      · exact hp1 _ hst (hid e he)
      · obtain ⟨r, hrL, hro, hxr⟩ := mem_remoteSet rd uid L _ hrem
        rw [hxr]
        exact hp2 r hrL hro

/-- Witness for C9: handle hB is dropped when the listing moves from
repoB to repoA. -/
theorem c9_drop_frame_witness :
    (hB ∈ [hB]) ∧
    memId (remoteSet rdSample 7 [repoA]) hB.repo.id = false ∧
    (findNewRepos envOk rdSample 7 [hB] [repoA]).2.2 = none ∧
    (memId (sync envOk rdSample 7 [hB] [repoA]).1 hB.repo.id = false ∧
     (∀ e ∈ (sync envOk rdSample 7 [hB] [repoA]).2.1,
        (Effect.handleOf e).repo.id ≠ hB.repo.id) ∧
     ((∀ x ∈ [hB], x.repo.id ≠ hB.repo.id → x.path ≠ hB.path) →
      (∀ r ∈ [repoA], r.ownerId = 7 → pathJoin rdSample r.name ≠ hB.path) →
      ∀ e ∈ (sync envOk rdSample 7 [hB] [repoA]).2.1,
        (Effect.handleOf e).path ≠ hB.path)) :=
  ⟨by decide, by decide, by decide,
   c9_drop_frame envOk rdSample 7 [hB] [repoA] hB (by decide) (by decide) (by decide)⟩

/-- Counterexample for C9 as stated: with tracked handle hB and a listing
holding a different repository reusing its name, hB is dropped by a cycle
that raises nothing, yet the cycle inits and pulls a handle whose path is
exactly the path of hB: the dropped directory is operated on. -/
theorem c9_drop_frame_counterexample :
    memId (remoteSet rdSample 7 [repoC]) hB.repo.id = false ∧
    (sync envOk rdSample 7 [hB] [repoC]).2.2 = none ∧
    memId (sync envOk rdSample 7 [hB] [repoC]).1 hB.repo.id = false ∧
    Effect.initE hC ∈ (sync envOk rdSample 7 [hB] [repoC]).2.1 ∧
    Effect.pullE hC ∈ (sync envOk rdSample 7 [hB] [repoC]).2.1 ∧
    hC.path = hB.path := by
  decide

/-- C10: a refresh failure whose stderr has no fatal line produces a
GitError whose msg holds the raw stderr bytes; the benign-merge check of
sync then tests a str for membership in a bytes value, so the refresh
loop stops with a TypeError rather than re-raising the GitError or
swallowing it. -/
theorem c10_bytes_msg_typeerror (env : Env) (h : LocalRepository)
    (rest : List LocalRepository) (stderr : Bytes)
    (hp : env.pullRes h = some stderr)
    (hnf : findFatal stderr = none) :
    from_error_msg stderr = .gitError (.bytes stderr) ∧
    refreshLoop env (h :: rest) = ([Effect.pullE h], some PyExc.typeError) := by
  have hfe : from_error_msg stderr = .gitError (.bytes stderr) := by
    unfold from_error_msg
    rw [hnf]
  refine ⟨hfe, ?_⟩
  simp [refreshLoop, hp, hfe, GitError.msgOf]

/-- Witness for C10 at a concrete marker-free pull stderr. -/
theorem c10_bytes_msg_typeerror_witness :
    envNoFatal.pullRes hA = some noFatalStderr ∧
    findFatal noFatalStderr = none ∧
    (from_error_msg noFatalStderr = .gitError (.bytes noFatalStderr) ∧
     refreshLoop envNoFatal (hA :: [hB]) = ([Effect.pullE hA], some PyExc.typeError)) :=
  ⟨rfl, by decide,
   c10_bytes_msg_typeerror envNoFatal hA [hB] noFatalStderr rfl (by decide)⟩

end GithubSyncer
